import Mathlib

/-!
Shallow embedding of `oauth10a/signing_requests.py` (a Python 2 module) together
with the parts of the Python 2.7 standard library it calls: `urllib.quote_plus`,
`urllib.urlencode`, `urlparse.urlparse` / `urlunparse` and the `hostname` / `port`
properties, `hashlib.sha1`, `hmac.new(...).digest()` and `base64.b64encode`.

Python 2 `str` values are byte strings; we model them as Lean `String`s whose
characters stand for the byte values (all inputs considered in this development
are ASCII, where the two notions coincide, and UTF-8 preserves codepoint order
bytewise so lexicographic comparisons also coincide).  Uncaught Python exceptions
are modelled with `Except`.
-/

/-- Python 2 `str.lower` under the default C locale: it lowercases ASCII letters
(byte values 65-90) and leaves every other byte unchanged. -/
def pyLowerChar (c : Char) : Char :=
  if 65 ≤ c.toNat ∧ c.toNat ≤ 90 then Char.ofNat (c.toNat + 32) else c

/-- Python 2 `str.lower` applied to a whole byte string. -/
def pyLower (s : String) : String :=
  String.mk (s.data.map pyLowerChar)

/-- Python 2 `str.upper` under the default C locale (ASCII letters only). -/
def pyUpperChar (c : Char) : Char :=
  if 97 ≤ c.toNat ∧ c.toNat ≤ 122 then Char.ofNat (c.toNat - 32) else c

/-- Python 2 `str.upper` applied to a whole byte string. -/
def pyUpper (s : String) : String :=
  String.mk (s.data.map pyUpperChar)

/-- `urllib.always_safe` from Python 2.7: ASCII letters, digits and `_`, `.`, `-`.
Note that `~` is NOT in this set (unlike the RFC 3986 unreserved set). -/
def always_safe (c : Char) : Bool :=
  c.isAlpha || c.isDigit || c == '_' || c == '.' || c == '-'

/-- One uppercase hexadecimal digit, as produced by the `'%%%02X' % ord(c)`
formatting inside `urllib.quote`. -/
def hexDigitChar (n : Nat) : Char :=
  "0123456789ABCDEF".data.getD n '0'

/-- The three-character escape `%XX` (uppercase hex) for the byte `c`. -/
def hexEscapeL (c : Char) : List Char :=
  ['%', hexDigitChar (c.toNat / 16 % 16), hexDigitChar (c.toNat % 16)]

/-- The per-character quoter built by Python 2 `urllib.quote`: a character in
`always_safe` or in the extra `safe` argument is kept, every other byte is
escaped as `%XX`. -/
def quoteCharL (safe : List Char) (c : Char) : List Char :=
  if always_safe c || safe.contains c then [c] else hexEscapeL c

/-- Python 2 `urllib.quote(s, safe)`. -/
def quote (s : String) (safe : List Char) : String :=
  String.mk ((s.data.map (quoteCharL safe)).flatten)

/-- Python `str.replace(old, new)` for single-character `old` and `new`. -/
def pyReplaceChar (s : String) (a b : Char) : String :=
  String.mk (s.data.map (fun c => if c = a then b else c))

/-- Python 2 `urllib.quote_plus(s)` with its default empty `safe` argument, as
called throughout the source: if `s` contains a space, quote with the space kept
safe and then replace each space with a plus sign; otherwise plain quote with no
extra safe characters (so `/` IS escaped, unlike `urllib.quote`). -/
def quote_plus (s : String) : String :=
  if s.data.contains ' ' then pyReplaceChar (quote s [' ']) ' ' '+'
  else quote s []

/-- Python `sep.join(l)`. -/
def joinSep (sep : String) : List String → String
  | [] => ""
  | [s] => s
  | s :: rest => s ++ sep ++ joinSep sep rest

/-- Python 2 `urllib.urlencode` on a mapping, modelled as an association list in
iteration order: each key and value is `quote_plus`-encoded, pairs are joined as
`k=v` with `&` separators. -/
def urlencode (q : List (String × String)) : String :=
  joinSep "&" (q.map (fun p => quote_plus p.1 ++ "=" ++ quote_plus p.2))

/-- Uncaught Python exceptions raised on the URL-canonicalization path:
`TypeError` (from `':'.join([None])` when the parsed URL has no hostname) and
`ValueError` (from the bracket check in `urlsplit` or from `int(port, 10)`). -/
inductive PyError where
  | typeError : PyError
  | valueError : PyError
  deriving DecidableEq, Repr

/-- The five components returned by Python 2 `urlparse.urlsplit`. -/
structure SplitResult where
  scheme : String
  netloc : String
  path : String
  query : String
  fragment : String
  deriving DecidableEq, Repr

/-- The six components returned by Python 2 `urlparse.urlparse`. -/
structure ParseResult where
  scheme : String
  netloc : String
  path : String
  params : String
  query : String
  fragment : String
  deriving DecidableEq, Repr

/-- `urlparse.scheme_chars` from Python 2.7: letters, digits and `+-.`. -/
def scheme_chars (c : Char) : Bool :=
  c.isAlpha || c.isDigit || c == '+' || c == '-' || c == '.'

/-- Characters that terminate the netloc in `urlparse._splitnetloc`. -/
def netlocDelim (c : Char) : Bool :=
  c == '/' || c == '?' || c == '#'

/-- `urlparse._splitnetloc(url, 2)` applied to the text after the leading `//`:
the netloc runs to the earliest of `/`, `?`, `#`. -/
def splitnetloc (l : List Char) : List Char × List Char :=
  (l.takeWhile (fun c => !netlocDelim c), l.dropWhile (fun c => !netlocDelim c))

/-- The mixed-bracket check in `urlsplit` that raises `ValueError("Invalid IPv6 URL")`. -/
def invalidIPv6 (netloc : List Char) : Bool :=
  (netloc.contains '[' && !netloc.contains ']')
    || (netloc.contains ']' && !netloc.contains '[')

/-- Python `s.split(c, 1)` for a character known to occur: the prefix before the
first occurrence of `c` and the remainder after it. -/
def splitFirst (c : Char) : List Char → List Char × List Char
  | [] => ([], [])
  | a :: rest =>
    if a = c then ([], rest)
    else
      let p := splitFirst c rest
      (a :: p.1, p.2)

/-- The netloc step of `urlsplit`: when the text starts with `//`, split the
netloc off at the earliest delimiter; otherwise there is no netloc. -/
def urlsplitNetloc (l : List Char) : List Char × List Char :=
  if l.take 2 = ['/', '/'] then splitnetloc (l.drop 2) else ([], l)

/-- The fragment step of `urlsplit`: split at the first `#` when present. -/
def splitHash (l : List Char) : List Char × List Char :=
  if l.contains '#' then splitFirst '#' l else (l, [])

/-- The query step of `urlsplit`: split at the first `?` when present. -/
def splitQmark (l : List Char) : List Char × List Char :=
  if l.contains '?' then splitFirst '?' l else (l, [])

/-- The common tail of Python 2.7 `urlsplit` once the scheme has been handled:
strip a leading `//`-netloc (raising on mixed IPv6 brackets), then split off the
fragment at the first `#`, then the query at the first `?`. -/
def urlsplitRest (scheme : String) (l : List Char) : Except PyError SplitResult :=
  if invalidIPv6 (urlsplitNetloc l).1 then Except.error PyError.valueError
  else
    Except.ok ⟨scheme, String.mk (urlsplitNetloc l).1,
      String.mk (splitQmark (splitHash (urlsplitNetloc l).2).1).1,
      String.mk (splitQmark (splitHash (urlsplitNetloc l).2).1).2,
      String.mk (splitHash (urlsplitNetloc l).2).2⟩

/-- Python 2.7 `urlparse.urlsplit(url)` (default `scheme=''`, `allow_fragments=True`).
The `url[:i] == 'http'` fast path and the generic scheme detection (including the
check that the text after `:` is not just a port number) are reproduced from the
source of `urlparse.py`. -/
def urlsplit (url : String) : Except PyError SplitResult :=
  let l := url.data
  match l.findIdx? (fun c => c == ':') with
  | some i =>
    if 0 < i then
      let pre := l.take i
      let rest := l.drop (i + 1)
      if pre = "http".data then
        urlsplitRest "http" rest
      else if pre.all scheme_chars then
        if rest.isEmpty || !rest.all Char.isDigit then
          urlsplitRest (pyLower (String.mk pre)) rest
        else
          urlsplitRest "" l
      else
        urlsplitRest "" l
    else
      urlsplitRest "" l
  | none => urlsplitRest "" l

/-- `urlparse.uses_params` from Python 2.7. -/
def uses_params : List String :=
  ["ftp", "hdl", "prospero", "http", "imap", "https", "shttp", "rtsp", "rtspu",
   "sip", "sips", "mms", "", "sftp", "tel"]

/-- Index of the last occurrence of `c` in `l` (Python `rfind`, when present). -/
def rfindIdx (l : List Char) (c : Char) : Option Nat :=
  match l.reverse.findIdx? (fun x => x == c) with
  | some j => some (l.length - 1 - j)
  | none => none

/-- Index of the first occurrence of `c` at or after position `start` (Python
`find(c, start)`, when present). -/
def findFrom (l : List Char) (c : Char) (start : Nat) : Option Nat :=
  match (l.drop start).findIdx? (fun x => x == c) with
  | some j => some (start + j)
  | none => none

/-- Python 2.7 `urlparse._splitparams(url)`: split path parameters off at the
first `;` in the last path segment; if the `;` sits before the last `/`, the
path is returned whole. -/
def splitparams (l : List Char) : List Char × List Char :=
  if l.contains '/' then
    match rfindIdx l '/' with
    | some k =>
      match findFrom l ';' k with
      | some i => (l.take i, l.drop (i + 1))
      | none => (l, [])
    | none => (l, [])
  else
    match l.findIdx? (fun x => x == ';') with
    | some i => (l.take i, l.drop (i + 1))
    | none => (l, [])

/-- Python 2.7 `urlparse.urlparse(url)`: split, then separate path parameters
when the scheme uses them and the path contains a `;`. -/
def urlparse (url : String) : Except PyError ParseResult :=
  match urlsplit url with
  | Except.error e => Except.error e
  | Except.ok s =>
    if uses_params.contains s.scheme && s.path.data.contains ';' then
      let pr := splitparams s.path.data
      Except.ok ⟨s.scheme, s.netloc, String.mk pr.1, String.mk pr.2, s.query, s.fragment⟩
    else
      Except.ok ⟨s.scheme, s.netloc, s.path, "", s.query, s.fragment⟩

/-- Python `s.split(c)[-1]`: everything after the last occurrence of `c`
(`s` itself when `c` does not occur). -/
def afterLastSplit (c : Char) (l : List Char) : List Char :=
  match rfindIdx l c with
  | some k => l.drop (k + 1)
  | none => l

/-- The `hostname` property of a Python 2.7 `SplitResult`: userinfo up to the
last `@` is dropped, a bracketed IPv6 literal or the text before the first `:`
is selected, and the result is lowercased; an empty netloc yields `None`. -/
def hostname (netloc : String) : Option String :=
  let n := afterLastSplit '@' netloc.data
  if n.contains '[' && n.contains ']' then
    some (pyLower (String.mk ((n.takeWhile (fun c => !(c == ']'))).drop 1)))
  else if n.contains ':' then
    some (pyLower (String.mk (n.takeWhile (fun c => !(c == ':')))))
  else if n.isEmpty then
    none
  else
    some (pyLower (String.mk n))

/-- Python whitespace stripped by `int(s, 10)`. -/
def pyWhitespace (c : Char) : Bool :=
  c == ' ' || c == '\t' || c == '\n' || c == '\r' || c == '\x0b' || c == '\x0c'

/-- Decimal value of a digit string. -/
def digitsToNat (l : List Char) : Nat :=
  l.foldl (fun a c => a * 10 + (c.toNat - 48)) 0

/-- Python 2 `int(s, 10)`: optional surrounding whitespace, optional sign, then
at least one decimal digit; anything else raises `ValueError`. -/
def pyInt (s : String) : Except PyError Int :=
  let t1 := s.data.dropWhile pyWhitespace
  let t := (t1.reverse.dropWhile pyWhitespace).reverse
  match t with
  | '-' :: ds =>
    if !ds.isEmpty && ds.all Char.isDigit then Except.ok (-(digitsToNat ds : Int))
    else Except.error PyError.valueError
  | '+' :: ds =>
    if !ds.isEmpty && ds.all Char.isDigit then Except.ok (digitsToNat ds : Int)
    else Except.error PyError.valueError
  | ds =>
    if !ds.isEmpty && ds.all Char.isDigit then Except.ok (digitsToNat ds : Int)
    else Except.error PyError.valueError

/-- The text between the first and second `:` of `l` (Python `l.split(':')[1]`,
for `l` known to contain a `:`). -/
def secondField (l : List Char) : List Char :=
  ((l.dropWhile (fun c => !(c == ':'))).drop 1).takeWhile (fun c => !(c == ':'))

/-- The `port` property of a Python 2.7 `SplitResult`: drop userinfo and any
IPv6 bracket part, then parse the text after the first `:` with `int(_, 10)`
when it is non-empty; `None` otherwise.  A non-numeric port raises `ValueError`. -/
def port (netloc : String) : Except PyError (Option Int) :=
  let n := afterLastSplit ']' (afterLastSplit '@' netloc.data)
  if n.contains ':' then
    let p := secondField n
    if !p.isEmpty then
      match pyInt (String.mk p) with
      | Except.ok v => Except.ok (some v)
      | Except.error e => Except.error e
    else Except.ok none
  else Except.ok none

/-- `urlparse.urlunparse((scheme, netloc, path, None, None, None))` as called at
signing_requests.py line 82: params, query and fragment are `None` (falsy), so
only scheme, netloc and path contribute, following `urlunsplit`. -/
def urlunparse_nnn (scheme netloc path : String) : String :=
  let u1 :=
    if !netloc.isEmpty || (!path.isEmpty && path.data.take 2 = ['/', '/']) then
      (if !path.isEmpty && path.data.take 1 ≠ ['/'] then "//" ++ netloc ++ "/" ++ path
       else "//" ++ netloc ++ path)
    else path
  if !scheme.isEmpty then scheme ++ ":" ++ u1 else u1

/-- Lines 74-77 of signing_requests.py: drop the port when it is redundant with
the scheme (80 for http, 443 for https). -/
def canonPort (scheme : String) (port0 : Option Int) : Option Int :=
  let port1 := if scheme = "http" ∧ port0 = some 80 then none else port0
  if scheme = "https" ∧ port1 = some 443 then none else port1

/-- Lines 72 and 78-80: `':'.join(netloc)` on `[hostname]` or `[hostname, str(port)]`. -/
def joinNetloc (h : String) (po : Option Int) : String :=
  match po with
  | none => h
  | some p => h ++ ":" ++ toString p

/-- `request_url` (signing_requests.py lines 38-83): parse the URL, canonicalize
away a port that is redundant with the scheme, and reassemble scheme, netloc and
path with the query and fragment discarded.  A URL without a hostname makes the
`':'.join([None])` at line 80 raise `TypeError`; the port property is read first
(line 73) and may raise `ValueError`. -/
def request_url (url : String) : Except PyError String :=
  match urlparse url with
  | Except.error e => Except.error e
  | Except.ok parsed =>
    match port parsed.netloc with
    | Except.error e => Except.error e
    | Except.ok port0 =>
      match hostname parsed.netloc with
      | none => Except.error PyError.typeError
      | some h =>
        Except.ok (urlunparse_nnn parsed.scheme
          (joinNetloc h (canonPort parsed.scheme port0)) parsed.path)

/-- Strict lexicographic byte-order comparison of byte strings, as Python 2
compares `str` values: bytewise, with a proper prefix smaller than the longer
string.  (Characters stand for byte values; on UTF-8 data codepoint order and
byte order agree.) -/
def strLtL : List Char → List Char → Bool
  | _, [] => false
  | [], _ :: _ => true
  | x :: xs, y :: ys =>
    decide (x.toNat < y.toNat) || (x.toNat == y.toNat && strLtL xs ys)

/-- Python 2 `a < b` on byte strings. -/
def strLt (a b : String) : Bool := strLtL a.data b.data

/-- Comparison of (name, value) pairs as Python 2 `list.sort` compares tuples of
byte strings: by the name, then by the value on ties (`a2 <= b2` is `not (b2 < a2)`
for the total byte order). -/
def pairLe (p q : String × String) : Bool :=
  strLt p.1 q.1 || (p.1 == q.1 && !strLt q.2 p.2)

/-- The propositional form of `pairLe`. -/
def pairLeP (p q : String × String) : Prop :=
  pairLe p q = true

instance pairLeP_decidable : DecidableRel pairLeP :=
  fun p q => inferInstanceAs (Decidable (pairLe p q = true))

/-- Line 118 of signing_requests.py: `oauth_params.pop('oauth_signature', None)`.
The mapping (a Python dict, with unique keys) is modelled as an association
list; popping the key removes its entry. -/
def popSignature (op : List (String × String)) : List (String × String) :=
  op.filter (fun p => !(p.1 == "oauth_signature"))

/-- Lines 120-125: flatten the oauth mapping (after the pop) and the optional
get/post mappings into one sequence of (name, value) pairs.  `none` models a
Python `None` argument. -/
def collectedParams (op : List (String × String))
    (gp pp : Option (List (String × String))) : List (String × String) :=
  popSignature op ++ gp.getD [] ++ pp.getD []

/-- Line 127: `params.sort()` on the flattened pair list.  Python sorts by the
total tuple order `pairLe`; since that order is total, transitive and
antisymmetric, the sorted list is unique, and we model the sort with insertion
sort by `pairLeP`. -/
def sortedParams (op : List (String × String))
    (gp pp : Option (List (String × String))) : List (String × String) :=
  List.insertionSort pairLeP (collectedParams op gp pp)

/-- `normalized_request_parameters` (lines 86-129), modelled as returning both
the normalized string (line 129) and the final state of the caller's
`oauth_params` mapping, which line 118 mutates. -/
def normalized_request_parameters_run (op : List (String × String))
    (gp pp : Option (List (String × String))) :
    String × List (String × String) :=
  (joinSep "&" ((sortedParams op gp pp).map (fun p => p.1 ++ "=" ++ p.2)),
   popSignature op)

/-- The return value of `normalized_request_parameters`. -/
def normalized_request_parameters (op : List (String × String))
    (gp pp : Option (List (String × String))) : String :=
  (normalized_request_parameters_run op gp pp).1

/-- `signature_base_string` (lines 132-155): uppercase the method, canonicalize
the URL, normalize the parameters, `quote_plus` each of the three and join with
`&`.  The canonicalization step can raise, which propagates to the caller. -/
def signature_base_string (http_method url : String)
    (oauth_params : List (String × String))
    (gp pp : Option (List (String × String))) : Except PyError String :=
  match request_url url with
  | Except.error e => Except.error e
  | Except.ok u =>
    let m := pyUpper http_method
    let params := normalized_request_parameters oauth_params gp pp
    Except.ok (joinSep "&" ([m, u, params].map quote_plus))

/-- The outgoing HTTP request (a `requests` `PreparedRequest`): method, URL, a
mutable header mapping, and an opaque body. -/
structure Request where
  method : String
  url : String
  headers : List (String × String)
  body : String
  deriving DecidableEq, Repr

/-- The credentials stored by `AuthBase.__init__` (lines 159-165): absent token
fields have already been replaced by the empty string, and the callback URL
defaults to "oob". -/
structure Credentials where
  consumer_key : String
  consumer_secret : String
  token_key : String
  token_secret : String
  callback_url : String
  deriving DecidableEq, Repr

/-- `AuthBase.signature_base_string` (lines 167-173): the module-level builder is
invoked with the request method, the request URL and the oauth parameters only;
`get_params` and `post_params` keep their `None` defaults. -/
def AuthBase_signature_base_string (r : Request)
    (oauth_params : List (String × String)) : Except PyError String :=
  signature_base_string r.method r.url oauth_params none none

/-- Python dict item assignment `m[k] = v` on a header mapping modelled as an
association list: replace the value of an existing key, else append the pair. -/
def setItem (m : List (String × String)) (k v : String) : List (String × String) :=
  if m.any (fun p => p.1 == k) then m.map (fun p => if p.1 == k then (k, v) else p)
  else m ++ [(k, v)]

/-- 32-bit truncation. -/
def u32 (x : Nat) : Nat := x % 4294967296

/-- 32-bit left rotation (inputs are already < 2^32). -/
def rotl (n x : Nat) : Nat := u32 ((x <<< n) ||| (x >>> (32 - n)))

/-- Bitwise complement within 32 bits (for x < 2^32). -/
def shaNot (x : Nat) : Nat := 4294967295 - x

/-- The SHA-1 round function f_t. -/
def shaF (t b c d : Nat) : Nat :=
  if t < 20 then (b &&& c) ||| (shaNot b &&& d)
  else if t < 40 then b ^^^ c ^^^ d
  else if t < 60 then (b &&& c) ||| (b &&& d) ||| (c &&& d)
  else b ^^^ c ^^^ d

/-- The SHA-1 round constant K_t. -/
def shaK (t : Nat) : Nat :=
  if t < 20 then 0x5A827999
  else if t < 40 then 0x6ED9EBA1
  else if t < 60 then 0x8F1BBCDC
  else 0xCA62C1D6

/-- Big-endian 32-bit words from a byte list. -/
def wordsOfBytes : List Nat → List Nat
  | a :: b :: c :: d :: rest => (((a * 256 + b) * 256 + c) * 256 + d) :: wordsOfBytes rest
  | _ => []

/-- Element of a word list with default 0. -/
def getWord (l : List Nat) (n : Nat) : Nat := l.getD n 0

/-- Extend the (reversed) message schedule by `k` more words:
W_t = rotl1(W_(t-3) xor W_(t-8) xor W_(t-14) xor W_(t-16)). -/
def extendWords : Nat → List Nat → List Nat
  | 0, rev => rev
  | k + 1, rev =>
    extendWords k
      (rotl 1 (getWord rev 2 ^^^ getWord rev 7 ^^^ getWord rev 13 ^^^ getWord rev 15) :: rev)

/-- The 80-word SHA-1 message schedule of a 64-byte block. -/
def sha1Schedule (block : List Nat) : List Nat :=
  (extendWords 64 (wordsOfBytes block).reverse).reverse

/-- One SHA-1 round, consuming the pair (round index, schedule word). -/
def sha1Step (st : Nat × Nat × Nat × Nat × Nat) (tw : Nat × Nat) :
    Nat × Nat × Nat × Nat × Nat :=
  match st, tw with
  | (a, b, c, d, e), (t, w) =>
    (u32 (rotl 5 a + shaF t b c d + e + shaK t + w), a, rotl 30 b, c, d)

/-- SHA-1 compression of one 64-byte block into the running state. -/
def sha1Block (h : Nat × Nat × Nat × Nat × Nat) (block : List Nat) :
    Nat × Nat × Nat × Nat × Nat :=
  match h with
  | (h0, h1, h2, h3, h4) =>
    match (sha1Schedule block).enum.foldl sha1Step (h0, h1, h2, h3, h4) with
    | (a, b, c, d, e) => (u32 (h0 + a), u32 (h1 + b), u32 (h2 + c), u32 (h3 + d), u32 (h4 + e))

/-- Big-endian byte expansion of a value into `n` bytes. -/
def beBytes : Nat → Nat → List Nat
  | 0, _ => []
  | k + 1, v => beBytes k (v / 256) ++ [v % 256]

/-- SHA-1 padding: append 0x80, zero bytes up to 56 mod 64, and the 64-bit
big-endian bit length. -/
def sha1Pad (msg : List Nat) : List Nat :=
  let L := msg.length
  let zeros := (120 - (L + 1) % 64) % 64
  msg ++ [128] ++ List.replicate zeros 0 ++ beBytes 8 (L * 8)

/-- Walk the byte list collecting the current chunk (reversed) in `acc`, with
`room` bytes still free in it; emit a chunk whenever 64 bytes have accumulated. -/
def chunks64Go : List Nat → List Nat → Nat → List (List Nat)
  | [], acc, _ => if acc.isEmpty then [] else [acc.reverse]
  | b :: rest, acc, 0 => acc.reverse :: chunks64Go rest [b] 63
  | b :: rest, acc, r + 1 => chunks64Go rest (b :: acc) r

/-- Split a byte list into 64-byte chunks. -/
def chunks64 (l : List Nat) : List (List Nat) :=
  chunks64Go l [] 64

/-- `hashlib.sha1(msg).digest()`: the 20-byte SHA-1 digest. -/
def sha1 (msg : List Nat) : List Nat :=
  match (chunks64 (sha1Pad msg)).foldl sha1Block
      (0x67452301, 0xEFCDAB89, 0x98BADCFE, 0x10325476, 0xC3D2E1F0) with
  | (a, b, c, d, e) =>
    beBytes 4 a ++ beBytes 4 b ++ beBytes 4 c ++ beBytes 4 d ++ beBytes 4 e

/-- `hmac.new(key, msg, hashlib.sha1).digest()` per RFC 2104 with a 64-byte block:
a long key is first hashed, the key is zero-padded to 64 bytes, and the digest is
sha1(opad-key ++ sha1(ipad-key ++ msg)). -/
def hmacSha1 (key msg : List Nat) : List Nat :=
  let k0 := if 64 < key.length then sha1 key else key
  let k := k0 ++ List.replicate (64 - k0.length) 0
  sha1 ((k.map (fun b => b ^^^ 92)) ++ sha1 ((k.map (fun b => b ^^^ 54)) ++ msg))

/-- The base64 alphabet. -/
def b64Table : List Char :=
  "ABCDEFGHIJKLMNOPQRSTUVWXYZabcdefghijklmnopqrstuvwxyz0123456789+/".data

/-- One base64 output character. -/
def b64Char (n : Nat) : Char := b64Table.getD n 'A'

/-- `base64.b64encode` on a byte list. -/
def b64encode : List Nat → String
  | [] => ""
  | [a] => String.mk [b64Char (a / 4), b64Char (a % 4 * 16), '=', '=']
  | [a, b] => String.mk [b64Char (a / 4), b64Char (a % 4 * 16 + b / 16), b64Char (b % 16 * 4), '=']
  | a :: b :: c :: rest =>
    String.mk [b64Char (a / 4), b64Char (a % 4 * 16 + b / 16),
               b64Char (b % 16 * 4 + c / 64), b64Char (c % 64)] ++ b64encode rest

/-- Bytes of a Python 2 byte string (characters stand for byte values; all
strings reaching the digest in this development are ASCII). -/
def strBytes (s : String) : List Nat := s.data.map Char.toNat

/-- The key construction and digest of `HMACSHA1Auth.generate_signature`
(lines 212-227), factored over an explicit base string: the signing key is
`quote_plus(consumer_secret) + '&' + quote_plus(token_secret)` and the signature
is the base64-encoded HMAC-SHA1 digest of the base string under that key. -/
def hmacsha1_signature (consumer_secret token_secret base : String) : String :=
  b64encode (hmacSha1
    (strBytes (quote_plus consumer_secret ++ "&" ++ quote_plus token_secret))
    (strBytes base))

/-- `HMACSHA1Auth.generate_signature` (lines 212-227) on a request: the base
string comes from `AuthBase.signature_base_string` and its URL error propagates. -/
def generate_signature (cred : Credentials) (r : Request)
    (oauth_params : List (String × String)) : Except PyError String :=
  match AuthBase_signature_base_string r oauth_params with
  | Except.error e => Except.error e
  | Except.ok s => Except.ok (hmacsha1_signature cred.consumer_secret cred.token_secret s)

/-- The OAuth parameter set assembled by `AuthBase.__call__` (lines 176-183).
The nonce and timestamp come from the external `utils` collaborator (not part of
this module) and are passed in explicitly; the timestamp is already stringified. -/
def oauthParams (cred : Credentials) (timestamp nonce : String) :
    List (String × String) :=
  [("oauth_consumer_key", cred.consumer_key),
   ("oauth_signature_method", "HMAC-SHA1"),
   ("oauth_timestamp", timestamp),
   ("oauth_nonce", nonce),
   ("oauth_version", "1.0"),
   ("oauth_callback", cred.callback_url)]

/-- The serialized parameter string attached to the request: the oauth parameter
set extended with the computed signature (line 185) and url-encoded (line 186). -/
def signedUrlParams (cred : Credentials) (timestamp nonce base : String) : String :=
  urlencode (oauthParams cred timestamp nonce ++
    [("oauth_signature", hmacsha1_signature cred.consumer_secret cred.token_secret base)])

/-- `AuthBase.__call__` (lines 175-195) as executed by `HMACSHA1Auth`: build the
oauth parameter set, sign, url-encode, and attach the result to the URL (GET) or
to the Authorization header (any other method). -/
def hmacsha1_call (cred : Credentials) (timestamp nonce : String) (r : Request) :
    Except PyError Request :=
  let op := oauthParams cred timestamp nonce
  match generate_signature cred r op with
  | Except.error e => Except.error e
  | Except.ok sig =>
    let params := urlencode (op ++ [("oauth_signature", sig)])
    if r.method = "GET" then
      Except.ok (Request.mk r.method (r.url ++ "?" ++ params) r.headers r.body)
    else
      Except.ok (Request.mk r.method r.url
        (setItem r.headers "Authorization" ("OAuth " ++ params)) r.body)

/-- `RSASHA1Auth.__call__` (lines 234-248): the body is a bare `return r`; no
signature is computed or attached and no error is raised. -/
def rsasha1_call (cred : Credentials) (r : Request) : Request := r

/-- `PlaintextAuth.__call__` (lines 263-287): the body is a bare `return r`; no
signature is computed or attached and no error is raised. -/
def plaintext_call (cred : Credentials) (r : Request) : Request := r

/-- Modelled from the spec, section 4.2 step 3: the RFC 3986 unreserved set,
letters, digits and `-._~`. -/
def unreservedSpec (c : Char) : Bool :=
  c.isAlpha || c.isDigit || c == '-' || c == '.' || c == '_' || c == '~'

/-- Modelled from the spec, section 4.2 step 3: percent-encode with the
unreserved characters kept and everything else (a space included, as `%20`)
escaped.  Used only to compare the claims' wording against the source. -/
def percentEncodeSpecCharL (c : Char) : List Char :=
  if unreservedSpec c then [c] else hexEscapeL c

/-- The percent-encoding named by the claims (space becomes `%20`, `~` is kept). -/
def percentEncodeSpec (s : String) : String :=
  String.mk ((s.data.map percentEncodeSpecCharL).flatten)

/-- The HMAC-SHA1 signature as claim C6 words it: the key is built with the
spec's percent-encoding instead of the source's `quote_plus`. -/
def hmacsha1_signature_spec (consumer_secret token_secret base : String) : String :=
  b64encode (hmacSha1
    (strBytes (percentEncodeSpec consumer_secret ++ "&" ++ percentEncodeSpec token_secret))
    (strBytes base))

theorem strLtL_irrefl (l : List Char) : strLtL l l = false := by
  induction l with
  | nil => rfl
  | cons x xs ih => simp [strLtL, ih]

theorem strLtL_trans (a b c : List Char)
    (h1 : strLtL a b = true) (h2 : strLtL b c = true) : strLtL a c = true := by
  induction a generalizing b c with
  | nil =>
    cases b with
    | nil => exact absurd h1 (by simp [strLtL])
    | cons y ys =>
      cases c with
      | nil => exact absurd h2 (by simp [strLtL])
      | cons z zs => rfl
  | cons x xs ih =>
    cases b with
    | nil => exact absurd h1 (by simp [strLtL])
    | cons y ys =>
      cases c with
      | nil => exact absurd h2 (by simp [strLtL])
      | cons z zs =>
        simp only [strLtL, Bool.or_eq_true, Bool.and_eq_true, decide_eq_true_eq,
          beq_iff_eq] at h1 h2 ⊢
        rcases h1 with h1 | ⟨e1, le1⟩ <;> rcases h2 with h2 | ⟨e2, le2⟩
        · exact Or.inl (by omega)
        · exact Or.inl (by omega)
        · exact Or.inl (by omega)
        · exact Or.inr ⟨by omega, ih ys zs le1 le2⟩

theorem strLtL_total_eq (a b : List Char)
    (h1 : strLtL a b = false) (h2 : strLtL b a = false) : a = b := by
  induction a generalizing b with
  | nil =>
    cases b with
    | nil => rfl
    | cons y ys => exact absurd h1 (by simp [strLtL])
  | cons x xs ih =>
    cases b with
    | nil => exact absurd h2 (by simp [strLtL])
    | cons y ys =>
      rw [Bool.eq_false_iff] at h1 h2
      simp only [ne_eq, strLtL, Bool.or_eq_true, Bool.and_eq_true, decide_eq_true_eq,
        beq_iff_eq, not_or, not_and] at h1 h2
      have hxy : x.toNat = y.toNat := by omega
      have hchar : x = y := Char.ext (UInt32.ext hxy)
      have hxs : xs = ys := by
        apply ih
        · rw [Bool.eq_false_iff]; exact h1.2 hxy
        · rw [Bool.eq_false_iff]; exact h2.2 hxy.symm
      rw [hchar, hxs]

theorem strLtL_asymm (a b : List Char) (h : strLtL a b = true) :
    strLtL b a = false := by
  by_contra hc
  rw [Bool.not_eq_false] at hc
  have h2 := strLtL_trans a b a h hc
  rw [strLtL_irrefl] at h2
  exact absurd h2 (by simp)

theorem pairLe_trans (a b c : String × String)
    (h1 : pairLe a b = true) (h2 : pairLe b c = true) : pairLe a c = true := by
  simp only [pairLe, strLt, Bool.or_eq_true, Bool.and_eq_true, beq_iff_eq,
    Bool.not_eq_true'] at h1 h2 ⊢
  rcases h1 with h1 | ⟨e1, le1⟩ <;> rcases h2 with h2 | ⟨e2, le2⟩
  · exact Or.inl (strLtL_trans _ _ _ h1 h2)
  · exact Or.inl (e2 ▸ h1)
  · exact Or.inl (e1 ▸ h2)
  · refine Or.inr ⟨e1.trans e2, ?_⟩
    by_contra hc
    rw [Bool.not_eq_false] at hc
    cases hbc : strLtL b.2.data c.2.data with
    | true => exact absurd (strLtL_trans _ _ _ hbc hc) (by rw [le1]; simp)
    | false =>
      have hdata : c.2.data = b.2.data := strLtL_total_eq _ _ le2 hbc
      rw [hdata] at hc
      exact absurd hc (by rw [le1]; simp)

theorem pairLe_total (a b : String × String) : (pairLe a b || pairLe b a) = true := by
  simp only [pairLe, strLt, Bool.or_eq_true, Bool.and_eq_true, beq_iff_eq,
    Bool.not_eq_true']
  cases h1 : strLtL a.1.data b.1.data with
  | true => exact Or.inl (Or.inl rfl)
  | false =>
    cases h2 : strLtL b.1.data a.1.data with
    | true => exact Or.inr (Or.inl rfl)
    | false =>
      have e : a.1 = b.1 := String.ext (strLtL_total_eq _ _ h1 h2)
      cases h3 : strLtL b.2.data a.2.data with
      | false => exact Or.inl (Or.inr ⟨e, rfl⟩)
      | true => exact Or.inr (Or.inr ⟨e.symm, strLtL_asymm _ _ h3⟩)

theorem pairLe_antisymm (a b : String × String)
    (h1 : pairLe a b = true) (h2 : pairLe b a = true) : a = b := by
  simp only [pairLe, strLt, Bool.or_eq_true, Bool.and_eq_true, beq_iff_eq,
    Bool.not_eq_true'] at h1 h2
  rcases h1 with h1 | ⟨e1, le1⟩ <;> rcases h2 with h2 | ⟨e2, le2⟩
  · exact absurd h2 (by rw [strLtL_asymm _ _ h1]; simp)
  · rw [e2] at h1
    exact absurd h1 (by rw [strLtL_irrefl]; simp)
  · rw [e1] at h2
    exact absurd h2 (by rw [strLtL_irrefl]; simp)
  · exact Prod.ext e1 (String.ext (strLtL_total_eq _ _ le2 le1))

instance pairLeP_isAntisymm : IsAntisymm (String × String) pairLeP :=
  ⟨fun a b h1 h2 => pairLe_antisymm a b h1 h2⟩

/-- Decidable equality for results carrying a Python exception. -/
instance exceptDecidableEq {e a : Type} [DecidableEq e] [DecidableEq a] :
    DecidableEq (Except e a) := fun x y =>
  match x, y with
  | Except.ok u, Except.ok v =>
    if h : u = v then isTrue (h ▸ rfl) else isFalse (fun hc => h (Except.ok.inj hc))
  | Except.error u, Except.error v =>
    if h : u = v then isTrue (h ▸ rfl) else isFalse (fun hc => h (Except.error.inj hc))
  | Except.ok _, Except.error _ => isFalse (fun hc => Except.noConfusion hc)
  | Except.error _, Except.ok _ => isFalse (fun hc => Except.noConfusion hc)

instance pairLeP_isTotal : IsTotal (String × String) pairLeP :=
  ⟨fun a b => Bool.or_eq_true _ _ ▸ pairLe_total a b⟩

instance pairLeP_isTrans : IsTrans (String × String) pairLeP :=
  ⟨fun a b c => pairLe_trans a b c⟩

theorem sortedParams_sorted (op : List (String × String))
    (gp pp : Option (List (String × String))) :
    List.Sorted pairLeP (sortedParams op gp pp) :=
  List.sorted_insertionSort pairLeP (collectedParams op gp pp)

theorem insertionSort_pairLeP_eq_of_perm (l1 l2 : List (String × String))
    (h : l1.Perm l2) :
    List.insertionSort pairLeP l1 = List.insertionSort pairLeP l2 :=
  List.eq_of_perm_of_sorted
    ((List.perm_insertionSort pairLeP l1).trans
      (h.trans (List.perm_insertionSort pairLeP l2).symm))
    (List.sorted_insertionSort pairLeP l1)
    (List.sorted_insertionSort pairLeP l2)

/-- C1: the claim says signing with the RSA_SHA1 or PLAINTEXT strategy fails with
UnsupportedSignatureMethod and never passes the request through unsigned.  The
source does the opposite: both call bodies return the request unchanged, with no
signature computed or attached and no error raised. -/
theorem rsa_plaintext_return_unsigned (cred : Credentials) (r : Request) :
    rsasha1_call cred r = r ∧ plaintext_call cred r = r :=
  ⟨rfl, rfl⟩

/-- C2: the claim says the signature base string builder receives the request's
query or form-body parameters.  It does not: the request signer passes only the
oauth parameter set, and the canonical URL strips the query, so for a GET request
for http://example.com/r?id=123 the base string is byte-identical to the one for
the same request with no query at all. -/
theorem base_string_ignores_request_params (op : List (String × String))
    (m : String) (hs : List (String × String)) (b : String) :
    AuthBase_signature_base_string (Request.mk m "http://example.com/r?id=123" hs b) op =
      AuthBase_signature_base_string (Request.mk m "http://example.com/r" hs b) op := by
  have h1 : request_url "http://example.com/r?id=123" = Except.ok "http://example.com/r" := by
    decide
  have h2 : request_url "http://example.com/r" = Except.ok "http://example.com/r" := by
    decide
  simp [AuthBase_signature_base_string, signature_base_string, h1, h2]

/-- C8: the parameter normalizer sorts the flattened (name, value) pairs by byte
value of the name, then of the value, and joins them as name=value with `&`; on
the docstring example pairs a=1, c=hi%20there, f=25, f=50, f=a, z=p, z=t it
produces a=1&c=hi%20there&f=25&f=50&f=a&z=p&z=t. -/
theorem normalizer_sorts_and_joins :
    (∀ (op : List (String × String)) (gp pp : Option (List (String × String))),
      List.Sorted pairLeP (sortedParams op gp pp)) ∧
    (∀ (op : List (String × String)) (gp pp : Option (List (String × String))),
      normalized_request_parameters op gp pp =
        joinSep "&" ((sortedParams op gp pp).map (fun p => p.1 ++ "=" ++ p.2))) ∧
    normalized_request_parameters [("a", "1"), ("f", "25"), ("z", "p")]
        (some [("c", "hi%20there"), ("f", "50"), ("z", "t")]) (some [("f", "a")]) =
      "a=1&c=hi%20there&f=25&f=50&f=a&z=p&z=t" :=
  ⟨fun op gp pp => sortedParams_sorted op gp pp, fun _ _ _ => rfl, by decide⟩

/-- C4 counterexample: the normalizer is not free of side effects on its inputs.
Called with an oauth mapping containing the key oauth_signature, it removes that
entry from the caller's mapping (line 118 pops it), so the mapping after the
call differs from the mapping passed in. -/
theorem normalizer_mutates_input_cex :
    (normalized_request_parameters_run [("oauth_signature", "x")] none none).2 ≠
      [("oauth_signature", "x")] ∧
    (normalized_request_parameters_run [("oauth_signature", "x")] none none).2 = [] := by
  constructor
  · decide
  · decide

/-- C4 amended: the only mutation the normalizer performs on its inputs is
removing the oauth_signature entry from the oauth parameter mapping; and it is
deterministic: two invocations whose mappings hold the same pair multisets
(insertion order regardless) return byte-identical strings. -/
theorem normalizer_deterministic :
    (∀ (op : List (String × String)) (gp pp : Option (List (String × String))),
      (normalized_request_parameters_run op gp pp).2 = popSignature op) ∧
    (∀ (op1 op2 : List (String × String))
      (gp1 gp2 pp1 pp2 : Option (List (String × String))),
      op1.Perm op2 → (gp1.getD []).Perm (gp2.getD []) → (pp1.getD []).Perm (pp2.getD []) →
      normalized_request_parameters op1 gp1 pp1 =
        normalized_request_parameters op2 gp2 pp2) := by
  constructor
  · intro op gp pp
    rfl
  · intro op1 op2 gp1 gp2 pp1 pp2 h1 h2 h3
    have hcoll : (collectedParams op1 gp1 pp1).Perm (collectedParams op2 gp2 pp2) :=
      ((h1.filter _).append h2).append h3
    have hsort : sortedParams op1 gp1 pp1 = sortedParams op2 gp2 pp2 :=
      insertionSort_pairLeP_eq_of_perm _ _ hcoll
    simp only [normalized_request_parameters, normalized_request_parameters_run, hsort]

theorem normalizer_deterministic_witness :
    ([(("b" : String), ("2" : String)), ("a", "1")].Perm [("a", "1"), ("b", "2")]) ∧
    normalized_request_parameters [("b", "2"), ("a", "1")] none none =
      normalized_request_parameters [("a", "1"), ("b", "2")] none none :=
  ⟨by decide,
   normalizer_deterministic.2 [("b", "2"), ("a", "1")] [("a", "1"), ("b", "2")]
     none none none none (by decide) (by decide) (by decide)⟩

/-- C3 counterexample: the normalizer does not percent-encode names or values.
On the single pair c = "hi there" it returns "c=hi there" with the raw space,
not "c=hi%20there" as the claimed space-to-%20 encoding would give. -/
theorem normalizer_no_encoding_cex :
    normalized_request_parameters [("c", "hi there")] none none = "c=hi there" ∧
    ¬ normalized_request_parameters [("c", "hi there")] none none = "c=hi%20there" := by
  constructor
  · decide
  · decide

/-- C3 amended: the normalizer applies no percent-encoding at all; each name and
value is passed through byte-for-byte as given (any encoding must already be
present in the input), so a single non-reserved pair normalizes to name=value
verbatim. -/
theorem normalizer_passthrough (n v : String) (h : ¬ n = "oauth_signature") :
    normalized_request_parameters [(n, v)] none none = n ++ "=" ++ v := by
  have hb : (n == "oauth_signature") = false := by
    simpa using h
  have hpop : popSignature [(n, v)] = [(n, v)] := by
    simp [popSignature, List.filter, hb]
  have hsort : sortedParams [(n, v)] none none = [(n, v)] := by
    simp [sortedParams, collectedParams, hpop, List.insertionSort]
  simp [normalized_request_parameters, normalized_request_parameters_run, hsort, joinSep]

theorem normalizer_passthrough_witness :
    (¬ ("c" : String) = "oauth_signature") ∧
    normalized_request_parameters [("c", "hi there")] none none = "c" ++ "=" ++ "hi there" :=
  ⟨by decide, normalizer_passthrough "c" "hi there" (by decide)⟩

/-- Per-character characterization of `quote_plus`: a space becomes `+`, an
`always_safe` character is kept, everything else is `%XX`-escaped. -/
def quotePlusCharL (c : Char) : List Char :=
  if c = ' ' then ['+'] else if always_safe c then [c] else hexEscapeL c

theorem hexDigitChar_mem (n : Nat) : hexDigitChar n ∈ "0123456789ABCDEF".data := by
  unfold hexDigitChar
  rcases Nat.lt_or_ge n 16 with h | h
  · interval_cases n <;> decide
  · have hl : "0123456789ABCDEF".data.length ≤ n := by
      have : "0123456789ABCDEF".data.length = 16 := rfl
      omega
    rw [List.getD_eq_default _ _ hl]
    decide

theorem hexDigitChar_ne (n : Nat) (t : Char) (ht : ¬ t ∈ "0123456789ABCDEF".data) :
    ¬ hexDigitChar n = t :=
  fun h => ht (h ▸ hexDigitChar_mem n)

theorem quote_plus_charwise (s : String) :
    quote_plus s = String.mk ((s.data.map quotePlusCharL).flatten) := by
  have hchar : ∀ c : Char, ¬ c = ' ' → quoteCharL [] c = quotePlusCharL c := by
    intro c hc
    have h0 : (([] : List Char)).contains c = false := rfl
    simp only [quoteCharL, h0, Bool.or_false, quotePlusCharL, if_neg hc]
  have hrep : ∀ c : Char,
      (quoteCharL [' '] c).map (fun x => if x = ' ' then '+' else x) = quotePlusCharL c := by
    intro c
    by_cases h1 : (always_safe c || [' '].contains c) = true
    · simp only [quoteCharL, h1, if_true]
      by_cases h2 : c = ' '
      · subst h2
        simp [quotePlusCharL]
      · have hs : always_safe c = true := by
          have h3 : always_safe c = true ∨ c = ' ' := by simpa using h1
          rcases h3 with h3 | h3
          · exact h3
          · exact absurd h3 h2
        simp [quotePlusCharL, h2, hs]
    · have hc : ¬ c = ' ' := by
        intro he
        subst he
        exact h1 (by simp)
      have hs : always_safe c = false := by
        cases hA : always_safe c
        · rfl
        · exact absurd (by simp [hA]) h1
      simp only [quoteCharL, h1, if_false, quotePlusCharL, hc, hs, if_neg, Bool.false_eq_true]
      simp [hexEscapeL, hc, hexDigitChar_ne _ ' ' (by decide)]
  cases hsp : s.data.contains ' ' with
  | false =>
    have hmem : ∀ c ∈ s.data, ¬ c = ' ' := by
      intro c hcm he
      subst he
      rw [show s.data.contains ' ' = true from by simpa using hcm] at hsp
      exact absurd hsp (by simp)
    simp only [quote_plus, hsp, Bool.false_eq_true, if_false, quote]
    exact congrArg (fun l => String.mk (List.flatten l))
      (List.map_congr_left (fun c hc => hchar c (hmem c hc)))
  | true =>
    simp only [quote_plus, hsp, if_true]
    have e1 : pyReplaceChar (quote s [' ']) ' ' '+' =
        String.mk (((s.data.map (quoteCharL [' '])).flatten).map
          (fun x => if x = ' ' then '+' else x)) := rfl
    rw [e1, List.map_flatten, List.map_map]
    exact congrArg (fun l => String.mk (List.flatten l))
      (List.map_congr_left (fun c _ => hrep c))

/-- Any character of `joinSep sep L` comes from the separator or from one of the
joined strings. -/
theorem joinSep_chars (sep : String) (L : List String) (c : Char)
    (h : c ∈ (joinSep sep L).data) : c ∈ sep.data ∨ ∃ s ∈ L, c ∈ s.data := by
  induction L with
  | nil => exact absurd h (by simp [joinSep])
  | cons s rest ih =>
    cases rest with
    | nil =>
      exact Or.inr ⟨s, by simp, by simpa [joinSep] using h⟩
    | cons t ts =>
      simp only [joinSep, String.data_append, List.mem_append] at h
      rcases h with (h | h) | h
      · exact Or.inr ⟨s, by simp, h⟩
      · exact Or.inl h
      · rcases ih h with h | ⟨u, hu, hc⟩
        · exact Or.inl h
        · exact Or.inr ⟨u, by simp [hu], hc⟩

theorem qmark_notin_quote_plus (s : String) : ¬ '?' ∈ (quote_plus s).data := by
  rw [quote_plus_charwise]
  intro h
  rcases List.mem_flatten.mp h with ⟨t, ht, hc⟩
  rcases List.mem_map.mp ht with ⟨c, _, rfl⟩
  revert hc
  by_cases h1 : c = ' '
  · simp [quotePlusCharL, h1]
  · by_cases h2 : always_safe c
    · simp only [quotePlusCharL, h1, if_false, h2, if_true, List.mem_singleton]
      intro hq
      rw [← hq] at h2
      exact absurd h2 (by decide)
    · simp only [quotePlusCharL, h1, if_false, h2, if_true, Bool.false_eq_true, hexEscapeL]
      intro hq
      rcases (by simpa using hq :
          ('?' : Char) = '%' ∨ '?' = hexDigitChar (c.toNat / 16 % 16) ∨
            '?' = hexDigitChar (c.toNat % 16)) with hq2 | hq2 | hq2
      · exact absurd hq2 (by decide)
      · exact hexDigitChar_ne _ '?' (by decide) hq2.symm
      · exact hexDigitChar_ne _ '?' (by decide) hq2.symm

theorem qmark_notin_urlencode (l : List (String × String)) :
    ¬ '?' ∈ (urlencode l).data := by
  intro h
  rcases joinSep_chars "&" _ '?' h with h2 | ⟨s, hs, hc⟩
  · exact absurd h2 (by decide)
  · rcases List.mem_map.mp hs with ⟨p, _, rfl⟩
    simp only [String.data_append, List.mem_append] at hc
    rcases hc with (hc | hc) | hc
    · exact qmark_notin_quote_plus _ hc
    · exact absurd hc (by decide)
    · exact qmark_notin_quote_plus _ hc

theorem count_qmark_append (a b : String) (hb : ¬ '?' ∈ b.data) :
    (a ++ "?" ++ b).data.count '?' = a.data.count '?' + 1 := by
  have h1 : ("?" : String).data.count '?' = 1 := by decide
  have h2 : b.data.count '?' = 0 := List.count_eq_zero.mpr hb
  simp [String.data_append, List.count_append, h1, h2]

set_option maxRecDepth 100000

/-- The characters where `quote_plus` and the claims' percent-encoding agree:
everything except the space (`+` versus `%20`) and the tilde (escaped by Python 2
urllib, unreserved in RFC 3986). -/
theorem quotePlusCharL_eq_spec (c : Char) (h1 : ¬ c = ' ') (h2 : ¬ c = '~') :
    quotePlusCharL c = percentEncodeSpecCharL c := by
  have e : always_safe c = unreservedSpec c := by
    rw [Bool.eq_iff_iff]
    simp only [always_safe, unreservedSpec, Bool.or_eq_true, beq_iff_eq]
    constructor
    · intro h
      tauto
    · intro h
      tauto
  simp [quotePlusCharL, percentEncodeSpecCharL, h1, e]

theorem quote_plus_eq_spec (s : String)
    (h : ∀ c ∈ s.data, ¬ c = ' ' ∧ ¬ c = '~') :
    quote_plus s = percentEncodeSpec s := by
  rw [quote_plus_charwise, percentEncodeSpec]
  exact congrArg (fun l => String.mk (List.flatten l))
    (List.map_congr_left (fun c hc => quotePlusCharL_eq_spec c (h c hc).1 (h c hc).2))

/-- C6 counterexample: the claim builds the HMAC key with the spec's
percent-encoding (space to %20, tilde unescaped).  The source builds it with
`quote_plus`, which escapes the tilde, so already for consumer secret "~" (empty
token secret, empty base string) the two signatures differ byte-for-byte. -/
theorem hmac_key_encoding_cex :
    hmacsha1_signature "~" "" "" = "0214YQ9McJLWEJEpz70uMqi/0CA=" ∧
    hmacsha1_signature_spec "~" "" "" = "LGHY600T6UEeCakKAvuPUpepgbk=" ∧
    ¬ hmacsha1_signature "~" "" "" = hmacsha1_signature_spec "~" "" "" := by
  refine ⟨by decide, by decide, by decide⟩

/-- C6 amended: the HMAC_SHA1 strategy computes the signature as the base64
encoding of the HMAC-SHA1 digest of the base string under the key
quote_plus(consumerSecret) + "&" + quote_plus(tokenSecret) — Python 2
quote_plus encoding, where a space becomes "+" and "~" is escaped — with both
key parts always present (empty string when unset); identical inputs always
yield a byte-identical signature (the definition is a pure function), and for
secrets free of spaces and tildes the key coincides with the claim's
percent-encoded form. -/
theorem hmacsha1_signature_characterization :
    (∀ cs ts base : String, hmacsha1_signature cs ts base =
      b64encode (hmacSha1 (strBytes (quote_plus cs ++ "&" ++ quote_plus ts))
        (strBytes base))) ∧
    (∀ cs ts base : String,
      (∀ c ∈ cs.data, ¬ c = ' ' ∧ ¬ c = '~') →
      (∀ c ∈ ts.data, ¬ c = ' ' ∧ ¬ c = '~') →
      hmacsha1_signature cs ts base = hmacsha1_signature_spec cs ts base) := by
  constructor
  · intro cs ts base
    rfl
  · intro cs ts base h1 h2
    unfold hmacsha1_signature hmacsha1_signature_spec
    rw [quote_plus_eq_spec cs h1, quote_plus_eq_spec ts h2]

theorem hmacsha1_signature_characterization_witness :
    hmacsha1_signature "secret" "token" "x" =
      hmacsha1_signature_spec "secret" "token" "x" :=
  hmacsha1_signature_characterization.2 "secret" "token" "x" (by decide) (by decide)

/-- Shared frame lemma for the signing call: once the base string is computed,
the call succeeds, and the result replaces exactly the URL (for GET) or exactly
the Authorization header (for any other method), all other fields copied over. -/
theorem hmacsha1_call_cases (cred : Credentials) (t n : String) (r : Request)
    (base : String)
    (hb : AuthBase_signature_base_string r (oauthParams cred t n) = Except.ok base) :
    (r.method = "GET" → hmacsha1_call cred t n r = Except.ok (Request.mk r.method
      (r.url ++ "?" ++ signedUrlParams cred t n base) r.headers r.body)) ∧
    (¬ r.method = "GET" → hmacsha1_call cred t n r = Except.ok (Request.mk r.method r.url
      (setItem r.headers "Authorization" ("OAuth " ++ signedUrlParams cred t n base))
      r.body)) := by
  have hg : generate_signature cred r (oauthParams cred t n) =
      Except.ok (hmacsha1_signature cred.consumer_secret cred.token_secret base) := by
    simp [generate_signature, hb]
  constructor
  · intro hm
    simp [hmacsha1_call, hg, hm, signedUrlParams]
  · intro hm
    simp [hmacsha1_call, hg, hm, signedUrlParams]

/-- C5: a successful signing call mutates exactly one of the request URL and the
header mapping and nothing else: for a GET request the url-encoded oauth
parameters are appended to the URL after a "?" and the headers are untouched;
for every other method the Authorization header is set to "OAuth " followed by
the serialized parameters and the URL is untouched; method and body are copied
unchanged in both cases. -/
theorem signing_mutates_exactly_one (cred : Credentials) (t n : String) (r : Request)
    (base : String)
    (hb : AuthBase_signature_base_string r (oauthParams cred t n) = Except.ok base) :
    (r.method = "GET" → hmacsha1_call cred t n r = Except.ok (Request.mk r.method
      (r.url ++ "?" ++ signedUrlParams cred t n base) r.headers r.body)) ∧
    (¬ r.method = "GET" → hmacsha1_call cred t n r = Except.ok (Request.mk r.method r.url
      (setItem r.headers "Authorization" ("OAuth " ++ signedUrlParams cred t n base))
      r.body)) :=
  hmacsha1_call_cases cred t n r base hb

theorem signing_mutates_exactly_one_witness :
    hmacsha1_call (Credentials.mk "ck" "cs" "" "" "oob") "1" "n"
        (Request.mk "GET" "http://example.com/r" [] "") =
      Except.ok (Request.mk "GET"
        ("http://example.com/r" ++ "?" ++
          signedUrlParams (Credentials.mk "ck" "cs" "" "" "oob") "1" "n"
            "GET&http%3A%2F%2Fexample.com%2Fr&oauth_callback%3Doob%26oauth_consumer_key%3Dck%26oauth_nonce%3Dn%26oauth_signature_method%3DHMAC-SHA1%26oauth_timestamp%3D1%26oauth_version%3D1.0")
        [] "") :=
  (signing_mutates_exactly_one (Credentials.mk "ck" "cs" "" "" "oob") "1" "n"
    (Request.mk "GET" "http://example.com/r" [] "")
    "GET&http%3A%2F%2Fexample.com%2Fr&oauth_callback%3Doob%26oauth_consumer_key%3Dck%26oauth_nonce%3Dn%26oauth_signature_method%3DHMAC-SHA1%26oauth_timestamp%3D1%26oauth_version%3D1.0"
    (by decide)).1 rfl

/-- C10: for a GET request the signing call sets the URL to the original URL,
then a "?", then the url-encoded oauth parameters, unconditionally: the appended
block never contains a "?", so when the original URL already carries a query
string the resulting URL contains one more "?" than before (a second separator),
with no error raised and no merging. -/
theorem get_signing_appends_query (cred : Credentials) (t n : String) (r : Request)
    (hm : r.method = "GET") :
    (∀ base : String,
      AuthBase_signature_base_string r (oauthParams cred t n) = Except.ok base →
      hmacsha1_call cred t n r = Except.ok (Request.mk r.method
        (r.url ++ "?" ++ signedUrlParams cred t n base) r.headers r.body)) ∧
    (∀ base : String,
      (r.url ++ "?" ++ signedUrlParams cred t n base).data.count '?' =
        r.url.data.count '?' + 1) := by
  constructor
  · intro base hb
    exact (hmacsha1_call_cases cred t n r base hb).1 hm
  · intro base
    exact count_qmark_append r.url (signedUrlParams cred t n base)
      (qmark_notin_urlencode _)

theorem get_signing_appends_query_witness :
    (hmacsha1_call (Credentials.mk "ck" "cs" "" "" "oob") "1" "n"
        (Request.mk "GET" "http://example.com/r?id=123" [] "") =
      Except.ok (Request.mk "GET"
        ("http://example.com/r?id=123" ++ "?" ++
          signedUrlParams (Credentials.mk "ck" "cs" "" "" "oob") "1" "n"
            "GET&http%3A%2F%2Fexample.com%2Fr&oauth_callback%3Doob%26oauth_consumer_key%3Dck%26oauth_nonce%3Dn%26oauth_signature_method%3DHMAC-SHA1%26oauth_timestamp%3D1%26oauth_version%3D1.0")
        [] "")) ∧
    (("http://example.com/r?id=123" ++ "?" ++
        signedUrlParams (Credentials.mk "ck" "cs" "" "" "oob") "1" "n"
          "GET&http%3A%2F%2Fexample.com%2Fr&oauth_callback%3Doob%26oauth_consumer_key%3Dck%26oauth_nonce%3Dn%26oauth_signature_method%3DHMAC-SHA1%26oauth_timestamp%3D1%26oauth_version%3D1.0").data.count '?' =
      ("http://example.com/r?id=123").data.count '?' + 1) :=
  ⟨(get_signing_appends_query (Credentials.mk "ck" "cs" "" "" "oob") "1" "n"
      (Request.mk "GET" "http://example.com/r?id=123" [] "") rfl).1 _ (by decide),
   (get_signing_appends_query (Credentials.mk "ck" "cs" "" "" "oob") "1" "n"
      (Request.mk "GET" "http://example.com/r?id=123" [] "") rfl).2 _⟩

theorem char_toNat_ofNat (n : Nat) (h : n < 55296) : (Char.ofNat n).toNat = n := by
  have hv : n.isValidChar := Or.inl h
  unfold Char.ofNat
  rw [dif_pos hv]
  rfl

theorem pyLowerChar_idem (c : Char) : pyLowerChar (pyLowerChar c) = pyLowerChar c := by
  unfold pyLowerChar
  by_cases h : 65 ≤ c.toNat ∧ c.toNat ≤ 90
  · rw [if_pos h]
    have hv : (Char.ofNat (c.toNat + 32)).toNat = c.toNat + 32 :=
      char_toNat_ofNat (c.toNat + 32) (by omega)
    rw [if_neg]
    rw [hv]
    omega
  · rw [if_neg h, if_neg h]

theorem pyLower_idem (s : String) : pyLower (pyLower s) = pyLower s := by
  unfold pyLower
  refine congrArg String.mk ?_
  rw [List.map_map]
  exact List.map_congr_left (fun c _ => pyLowerChar_idem c)

theorem urlsplitRest_scheme (sch : String) (l : List Char) (s : SplitResult)
    (h : urlsplitRest sch l = Except.ok s) : s.scheme = sch := by
  unfold urlsplitRest at h
  split at h
  · exact absurd h (by simp)
  · injection h with h2
    rw [← h2]

theorem urlsplit_scheme_lower (url : String) (s : SplitResult)
    (h : urlsplit url = Except.ok s) : pyLower s.scheme = s.scheme := by
  unfold urlsplit at h
  dsimp only at h
  split at h
  · split at h
    · split at h
      · rw [urlsplitRest_scheme _ _ _ h]
        decide
      · split at h
        · split at h
          · rw [urlsplitRest_scheme _ _ _ h]
            exact pyLower_idem _
          · rw [urlsplitRest_scheme _ _ _ h]
            decide
        · rw [urlsplitRest_scheme _ _ _ h]
          decide
    · rw [urlsplitRest_scheme _ _ _ h]
      decide
  · rw [urlsplitRest_scheme _ _ _ h]
    decide

theorem urlparse_scheme_lower (url : String) (p : ParseResult)
    (h : urlparse url = Except.ok p) : pyLower p.scheme = p.scheme := by
  unfold urlparse at h
  split at h
  · exact absurd h (by simp)
  · split at h
    · injection h with h2
      rw [← h2]
      exact urlsplit_scheme_lower url _ (by assumption)
    · injection h with h2
      rw [← h2]
      exact urlsplit_scheme_lower url _ (by assumption)

theorem hostname_lower (netloc h : String) (hh : hostname netloc = some h) :
    pyLower h = h := by
  unfold hostname at hh
  dsimp only at hh
  split at hh
  · injection hh with e
    rw [← e]
    exact pyLower_idem _
  · split at hh
    · injection hh with e
      rw [← e]
      exact pyLower_idem _
    · split at hh
      · exact absurd hh (by simp)
      · injection hh with e
        rw [← e]
        exact pyLower_idem _

/-- The port suffix the claim describes: empty for a missing or scheme-default
port, ":" and the decimal port otherwise. -/
def canonPortSuffix (scheme : String) (po : Option Int) : String :=
  match po with
  | none => ""
  | some p =>
    if (scheme = "http" ∧ p = 80) ∨ (scheme = "https" ∧ p = 443) then ""
    else ":" ++ toString p

theorem joinNetloc_canonPort (scheme h : String) (po : Option Int) :
    joinNetloc h (canonPort scheme po) = h ++ canonPortSuffix scheme po := by
  rcases po with _ | pv
  · simp [canonPort, joinNetloc, canonPortSuffix]
  · by_cases c1 : scheme = "http" ∧ pv = 80
    · simp [canonPort, joinNetloc, canonPortSuffix, c1]
    · by_cases c2 : scheme = "https" ∧ pv = 443
      · simp [canonPort, joinNetloc, canonPortSuffix, c1, c2]
      · simp [canonPort, joinNetloc, canonPortSuffix, c1, c2, String.append_assoc]

/-- C7 counterexample: the path is not always passed through unmodified.  For
schemes in `uses_params` (http included), Python 2 urlparse separates a `;`
suffix of the last path segment as path parameters, and `request_url` rebuilds
the URL without them, so `http://example.com/a;b` canonicalizes to
`http://example.com/a`, not to itself. -/
theorem request_url_path_params_cex :
    request_url "http://example.com/a;b" = Except.ok "http://example.com/a" ∧
    ¬ request_url "http://example.com/a;b" = Except.ok "http://example.com/a;b" := by
  refine ⟨by decide, by decide⟩

/-- C7 amended: for every URL the parser can process (some hostname, valid or
absent port), the canonical URL is scheme, authority and path only — query and
fragment discarded — with the scheme and host lowercased (both are fixed points
of lowercasing), default ports (80 for http, 443 for https) omitted, any other
explicit port retained, and the parsed path reproduced unmodified, where the
parsed path no longer carries a `;` path-parameter suffix of the last segment
for schemes that use path parameters; in particular
canonicalize("HTTP://Example.com:80/resource?id=123") = "http://example.com/resource". -/
theorem request_url_canonicalizes (url : String) (p : ParseResult) (h : String)
    (po : Option Int) (hp : urlparse url = Except.ok p)
    (hh : hostname p.netloc = some h) (hpo : port p.netloc = Except.ok po) :
    request_url url = Except.ok
      (urlunparse_nnn p.scheme (h ++ canonPortSuffix p.scheme po) p.path) ∧
    pyLower p.scheme = p.scheme ∧ pyLower h = h := by
  refine ⟨?_, urlparse_scheme_lower url p hp, hostname_lower p.netloc h hh⟩
  simp only [request_url, hp, hpo, hh, joinNetloc_canonPort]

theorem request_url_canonicalizes_witness :
    request_url "HTTP://Example.com:80/resource?id=123" =
      Except.ok "http://example.com/resource" :=
  (request_url_canonicalizes "HTTP://Example.com:80/resource?id=123"
    (ParseResult.mk "http" "Example.com:80" "/resource" "" "id=123" "")
    "example.com" (some 80) (by decide) (by decide) (by decide)).1.trans (by decide)

/-- The hostname the signer would extract from a URL: none when the URL cannot
be parsed at all or parses without a host component. -/
def parsedHostname (url : String) : Option String :=
  match urlparse url with
  | Except.error _ => none
  | Except.ok p => hostname p.netloc

/-- C9: an input URL that does not yield a host component — it cannot be parsed
into scheme, host and path — makes `request_url` fail with an uncaught exception
surfaced to the caller (`TypeError` from joining the `None` hostname, or
`ValueError` raised on the way), never returning a canonical URL. -/
theorem request_url_fails_without_host (url : String)
    (h : parsedHostname url = none) :
    request_url url = Except.error PyError.typeError ∨
    request_url url = Except.error PyError.valueError := by
  cases hu : urlparse url with
  | error e =>
    cases e with
    | typeError => exact Or.inl (by simp [request_url, hu])
    | valueError => exact Or.inr (by simp [request_url, hu])
  | ok p =>
    have h2 : hostname p.netloc = none := by
      unfold parsedHostname at h
      rw [hu] at h
      exact h
    cases hpo : port p.netloc with
    | error e =>
      cases e with
      | typeError => exact Or.inl (by simp [request_url, hu, hpo])
      | valueError => exact Or.inr (by simp [request_url, hu, hpo])
    | ok po => exact Or.inl (by simp [request_url, hu, hpo, h2])

theorem request_url_fails_without_host_witness :
    request_url "not-a-url" = Except.error PyError.typeError ∨
    request_url "not-a-url" = Except.error PyError.valueError :=
  request_url_fails_without_host "not-a-url" (by decide)
